import Mathlib

/-!
Shallow embedding of `memc_load.py`: a loader that parses tab-separated
device-install lines, routes them to per-device-type memcache shards and
counts `(processed, errors)` under three runners (linear, threaded, async).

Strings are embedded as `List Char`; Python `str.strip`, `str.split`,
`int(...)` and `float(...)` are modelled by executable functions below.
Network and log side effects are reified as an `Effect` trace; the outcome
of a memcache write is supplied by an oracle `netOk : addr → key → Bool`.
An uncaught Python exception is modelled as `Except.error`.
-/

namespace MemcLoad

abbrev PyStr := List Char

def pys (s : String) : PyStr := s.data

/-- ASCII fragment of Python's `str.isspace` characters used by `strip()`. -/
def isPySpace (c : Char) : Bool :=
  c == ' ' || c == '\t' || c == '\n' || c == '\r' || c == '\x0b' || c == '\x0c'

def pyLStrip (l : PyStr) : PyStr := l.dropWhile isPySpace

def pyRStrip (l : PyStr) : PyStr := ((l.reverse).dropWhile isPySpace).reverse

/-- Python `str.strip()` with no arguments. -/
def pyStrip (l : PyStr) : PyStr := pyLStrip (pyRStrip l)

/-- Python `str.split(sep)` with a one-character separator: keeps empty
pieces, `"".split(sep) == [""]`. -/
def pySplit (sep : Char) : PyStr → List PyStr
  | [] => [[]]
  | c :: rest =>
    if c = sep then [] :: pySplit sep rest
    else (c :: (pySplit sep rest).headI) :: (pySplit sep rest).tail

/-- Joining with a one-character separator (inverse of `pySplit`). -/
def pyJoin (sep : Char) : List PyStr → PyStr
  | [] => []
  | [p] => p
  | p :: q :: ps => p ++ sep :: pyJoin sep (q :: ps)

/-- Consume a run of decimal digits, with single underscores allowed
between digits (Python numeric literals); returns the accumulated value,
the number of digits consumed, and the rest of the input. -/
def takeDigitsAux : Nat → Nat → List Char → Nat × Nat × List Char
  | acc, len, [] => (acc, len, [])
  | acc, len, '_' :: c :: rest =>
    if c.isDigit then takeDigitsAux (10 * acc + (c.toNat - 48)) (len + 1) rest
    else (acc, len, '_' :: c :: rest)
  | acc, len, c :: rest =>
    if c.isDigit then takeDigitsAux (10 * acc + (c.toNat - 48)) (len + 1) rest
    else (acc, len, c :: rest)

def takeDigits : List Char → Nat × Nat × List Char
  | [] => (0, 0, [])
  | c :: rest =>
    if c.isDigit then takeDigitsAux (c.toNat - 48) 1 rest else (0, 0, c :: rest)

def pyIntCore (s : List Char) : Option Nat :=
  match takeDigits s with
  | (v, len, r) => if len = 0 ∨ r ≠ [] then none else some v

/-- Python `int(s)` on a decimal string: optional surrounding whitespace,
optional sign, digits with underscore separators; anything else raises
`ValueError`, modelled as `none`. -/
def pyInt (s : PyStr) : Option Int :=
  match pyStrip s with
  | '+' :: rest => (pyIntCore rest).map (fun n => (n : Int))
  | '-' :: rest => (pyIntCore rest).map (fun n => -(n : Int))
  | rest => (pyIntCore rest).map (fun n => (n : Int))

/-- Result of Python `float(...)`: the special values, or a finite decimal
literal recorded symbolically as mantissa and decimal exponent. -/
inductive PyFloat where
  | nan : PyFloat
  | inf : PyFloat
  | ninf : PyFloat
  | finite : Int → Int → PyFloat
deriving DecidableEq, Repr

def PyFloat.notFinite : PyFloat → Bool
  | .finite _ _ => false
  | _ => true

def pyFloatNumeral (neg : Bool) (s : List Char) : Option PyFloat :=
  match takeDigits s with
  | (ip, ilen, r1) =>
    match
      (match r1 with
       | '.' :: rest => takeDigits rest
       | _ => (0, 0, r1)) with
    | (fp, flen, r2) =>
      if ilen + flen = 0 then none
      else
        let sign : Int := if neg then -1 else 1
        let m : Int := sign * ((ip * 10 ^ flen + fp : Nat) : Int)
        match r2 with
        | [] => some (.finite m (-(flen : Int)))
        | e :: rest =>
          if e = 'e' ∨ e = 'E' then
            match
              (match rest with
               | '+' :: rr => (false, rr)
               | '-' :: rr => (true, rr)
               | rr => (false, rr)) with
            | (eneg, rest2) =>
              match takeDigits rest2 with
              | (ev, elen, r3) =>
                if elen = 0 ∨ r3 ≠ [] then none
                else
                  let ee : Int := if eneg then -(ev : Int) else (ev : Int)
                  some (.finite m (ee - (flen : Int)))
          else none

def pyFloatKeyword (neg : Bool) (s : List Char) : Option PyFloat :=
  let ls := s.map Char.toLower
  if ls = pys "inf" ∨ ls = pys "infinity" then some (if neg then .ninf else .inf)
  else if ls = pys "nan" then some .nan
  else pyFloatNumeral neg s

/-- Python `float(s)`: strip whitespace, optional sign, then `inf`,
`infinity`, `nan` (case-insensitive) or a decimal numeral with optional
fraction and exponent. Failure (`ValueError`) is `none`. -/
def pyFloat (s : PyStr) : Option PyFloat :=
  match pyStrip s with
  | '+' :: rest => pyFloatKeyword false rest
  | '-' :: rest => pyFloatKeyword true rest
  | rest => pyFloatKeyword false rest

/-- The namedtuple `AppsInstalled(dev_type, dev_id, lat, lon, apps)`. -/
structure AppsInstalled where
  dev_type : PyStr
  dev_id : PyStr
  lat : PyFloat
  lon : PyFloat
  apps : List Int
deriving DecidableEq, Repr

/-- An uncaught Python exception escaping a function. -/
inductive PyErr where
  | valueError : PyErr
deriving DecidableEq, Repr

/-- `[int(a.strip()) for a in pieces]`: all pieces must parse. -/
def parseApps : List PyStr → Option (List Int)
  | [] => some []
  | p :: ps =>
    match pyInt (pyStrip p) with
    | none => none
    | some v => (parseApps ps).map (fun l => v :: l)

/-- `parse_appsinstalled(line)`.  `line.strip().split("\t")`; fewer than
five fields rejects with `None`; exactly five unpack; more than five make
the tuple unpacking raise an uncaught `ValueError`.  Empty identity
fields, a bad app list, or bad coordinates reject with `None`. -/
def parse_appsinstalled (line : PyStr) : Except PyErr (Option AppsInstalled) :=
  if (pySplit '\t' (pyStrip line)).length < 5 then .ok none
  else
    match pySplit '\t' (pyStrip line) with
    | [dev_type, dev_id, lat, lon, raw_apps] =>
      if dev_type = [] ∨ dev_id = [] then .ok none
      else
        match parseApps (pySplit ',' raw_apps) with
        | none => .ok none
        | some apps =>
          match pyFloat lat, pyFloat lon with
          | some la, some lo => .ok (some ⟨dev_type, dev_id, la, lo, apps⟩)
          | _, _ => .ok none
    | _ => .error .valueError

/-- Reified side effects of the pipeline.  Protobuf payload serialization
is deterministic and inspected by no claim, so the effects record the
shard address and write key only. -/
inductive Effect where
  | logDebugDryRun : PyStr → PyStr → Effect
  | logErrorUnknownDevice : PyStr → Effect
  | logExcWriteFail : PyStr → Effect
  | netSet : PyStr → PyStr → Effect
deriving DecidableEq, Repr

def isNetSet : Effect → Bool
  | .netSet _ _ => true
  | _ => false

/-- Outcome oracle for a memcache `set` on `(address, key)`: `true` means
the connection and the write succeed, `false` means some exception. -/
abbrev NetOracle := PyStr → PyStr → Bool

/-- The option fields `main` reads: the four shard addresses and the
dry-run flag. -/
structure Options where
  idfa : PyStr
  gaid : PyStr
  adid : PyStr
  dvid : PyStr
  dry : Bool
deriving DecidableEq, Repr

/-- `options.device_memc.get(dev_type)` for the dict built in `main`. -/
def device_memc_get (o : Options) (dt : PyStr) : Option PyStr :=
  if dt = pys "idfa" then some o.idfa
  else if dt = pys "gaid" then some o.gaid
  else if dt = pys "adid" then some o.adid
  else if dt = pys "dvid" then some o.dvid
  else none

/-- Python truthiness test `not memc_addr`: `None` and the empty string
are falsy. -/
def py_falsy : Option PyStr → Bool
  | none => true
  | some s => s.isEmpty

/-- `insert_appsinstalled(memc_addr, appsinstalled, dry_run)`: dry run
logs the would-be write at debug level and returns `True`; otherwise a
fresh client attempts one `set`, returning `False` and logging on any
exception.  Result: `(effects, returned bool)`. -/
def insert_appsinstalled (netOk : NetOracle) (memc_addr : PyStr)
    (a : AppsInstalled) (dry_run : Bool) : List Effect × Bool :=
  let key := a.dev_type ++ ':' :: a.dev_id
  if dry_run then ([.logDebugDryRun memc_addr key], true)
  else if netOk memc_addr key then ([.netSet memc_addr key], true)
  else ([.netSet memc_addr key, .logExcWriteFail memc_addr], false)

/-- `insert_appsinstalled_async(memc_addr, appsinstalled)`: no dry-run
parameter exists; the network write is always attempted. -/
def insert_appsinstalled_async (netOk : NetOracle) (memc_addr : PyStr)
    (a : AppsInstalled) : List Effect × Bool :=
  let key := a.dev_type ++ ':' :: a.dev_id
  if netOk memc_addr key then ([.netSet memc_addr key], true)
  else ([.netSet memc_addr key, .logExcWriteFail memc_addr], false)

/-- Loop body of `process_file` for one line: parse, route, insert;
returns the effects and the `(processed, errors)` increment, or the
uncaught exception from the parser. -/
def process_file_step (netOk : NetOracle) (o : Options) (line : PyStr) :
    Except PyErr (List Effect × Nat × Nat) :=
  match parse_appsinstalled line with
  | .error e => .error e
  | .ok none => .ok ([], 0, 1)
  | .ok (some a) =>
    if py_falsy (device_memc_get o a.dev_type) then
      .ok ([.logErrorUnknownDevice a.dev_type], 0, 1)
    else
      match insert_appsinstalled netOk ((device_memc_get o a.dev_type).getD []) a o.dry with
      | (effs, true) => .ok (effs, 1, 0)
      | (effs, false) => .ok (effs, 0, 1)

/-- `process_file(filename, options)` over the decompressed lines of one
file: an uncaught parser exception aborts the file (and propagates). -/
def process_file (netOk : NetOracle) (o : Options) :
    List PyStr → Except PyErr (List Effect × Nat × Nat)
  | [] => .ok ([], 0, 0)
  | line :: rest =>
    match process_file_step netOk o line with
    | .error e => .error e
    | .ok (effs1, p1, e1) =>
      match process_file netOk o rest with
      | .error e => .error e
      | .ok (effs2, p2, e2) => .ok (effs1 ++ effs2, p1 + p2, e1 + e2)

/-- The task-collection loop of `process_file_async`: lines failing the
parse or the routing are skipped with `continue` (not counted); a parser
exception propagates out of the coroutine. -/
def collect_tasks (o : Options) :
    List PyStr → Except PyErr (List (PyStr × AppsInstalled))
  | [] => .ok []
  | line :: rest =>
    match parse_appsinstalled line with
    | .error e => .error e
    | .ok none => collect_tasks o rest
    | .ok (some a) =>
      if py_falsy (device_memc_get o a.dev_type) then collect_tasks o rest
      else
        (collect_tasks o rest).map
          (fun ts => ((device_memc_get o a.dev_type).getD [], a) :: ts)

/-- `process_file_async(filename, options)`: gather all the insert tasks,
count `True` results as processed and the rest as errors.  The dry-run
flag is never consulted on this path. -/
def process_file_async (netOk : NetOracle) (o : Options) (lines : List PyStr) :
    Except PyErr (List Effect × Nat × Nat) :=
  (collect_tasks o lines).map (fun tasks =>
    let results := tasks.map (fun t => insert_appsinstalled_async netOk t.1 t.2)
    (results.foldr (fun r acc => r.1 ++ acc) [],
     results.countP (fun r => r.2),
     results.length - results.countP (fun r => r.2)))

/-- A file as the runner sees it: `none` models a file whose open or read
raises (missing file, bad gzip, ...). -/
abbrev FileIn := Option (List PyStr)

/-- `process_files_async(file_list, options)`: one task per file,
gathered with `return_exceptions=True`, so a failed file contributes
nothing to the totals and the remaining files still count. -/
def process_files_async (netOk : NetOracle) (o : Options) (files : List FileIn) :
    List Effect × Nat × Nat :=
  files.foldl (fun acc f =>
    match f with
    | none => acc
    | some lines =>
      match process_file_async netOk o lines with
      | .error _ => acc
      | .ok (effs, p, e) => (acc.1 ++ effs, acc.2.1 + p, acc.2.2 + e)) ([], 0, 0)

/-- How a run can abort: a file open/read error, or the parser's uncaught
exception. -/
inductive RunErr where
  | ioError : RunErr
  | valueError : RunErr
deriving DecidableEq, Repr

/-- The `linear` branch of `main`: files processed one after another with
no exception handling, so the first failing file aborts the whole run. -/
def runLinear (netOk : NetOracle) (o : Options) :
    List FileIn → Except RunErr (List (List Effect × Nat × Nat))
  | [] => .ok []
  | f :: fs =>
    match f with
    | none => .error .ioError
    | some lines =>
      match process_file netOk o lines with
      | .error _ => .error .valueError
      | .ok r => (runLinear netOk o fs).map (fun rs => r :: rs)

/-- The value a `ThreadPoolExecutor` future for one file resolves to. -/
def future_result (netOk : NetOracle) (o : Options) :
    FileIn → Except RunErr (List Effect × Nat × Nat)
  | none => .error .ioError
  | some lines =>
    match process_file netOk o lines with
    | .error _ => .error .valueError
    | .ok r => .ok r

/-- The `future.result()` loop of the threaded branch, in submission
order: the first failed future re-raises and aborts result reporting. -/
def collect_futures {α : Type} :
    List (Except RunErr α) → Except RunErr (List α)
  | [] => .ok []
  | fr :: rest =>
    match fr with
    | .error e => .error e
    | .ok r => (collect_futures rest).map (fun rs => r :: rs)

/-- The `threaded` branch of `main`: submit every file to the pool, then
collect results in submission order. -/
def runThreaded (netOk : NetOracle) (o : Options) (files : List FileIn) :
    Except RunErr (List (List Effect × Nat × Nat)) :=
  collect_futures (files.map (future_result netOk o))

/-- Aggregate `(processed, errors)` totals of the linear runner. -/
def linear_totals (netOk : NetOracle) (o : Options) (files : List FileIn) :
    Except RunErr (Nat × Nat) :=
  (runLinear netOk o files).map (fun rs =>
    (rs.foldl (fun s r => s + r.2.1) 0, rs.foldl (fun s r => s + r.2.2) 0))

/-- Aggregate `(processed, errors)` totals of the async runner. -/
def async_totals (netOk : NetOracle) (o : Options) (files : List FileIn) :
    Nat × Nat :=
  ((process_files_async netOk o files).2.1, (process_files_async netOk o files).2.2)

/-- Oracle under which every write succeeds. -/
def netTrue : NetOracle := fun _ _ => true

/-- Oracle under which every write fails. -/
def netFalse : NetOracle := fun _ _ => false

/-- The default shard addresses of the option parser, with the given
dry-run flag. -/
def defaultOpts (dry : Bool) : Options :=
  ⟨pys "127.0.0.1:33013", pys "127.0.0.1:33014",
   pys "127.0.0.1:33015", pys "127.0.0.1:33016", dry⟩

/-! Helper lemmas about the string primitives. -/

theorem pySplit_ne_nil (sep : Char) (l : PyStr) : pySplit sep l ≠ [] := by
  cases l with
  | nil => simp [pySplit]
  | cons c rest =>
    by_cases hc : c = sep <;> simp [pySplit, hc]

theorem pySplit_length (sep : Char) (l : PyStr) :
    (pySplit sep l).length = l.count sep + 1 := by
  induction l with
  | nil => simp [pySplit]
  | cons c rest ih =>
    by_cases hc : c = sep
    · subst hc
      have hsp : pySplit c (c :: rest) = [] :: pySplit c rest := by
        rw [pySplit, if_pos rfl]
      rw [hsp, List.length_cons, ih, List.count_cons]
      simp
    · have hbc : (c == sep) = false := by simpa using hc
      cases h : pySplit sep rest with
      | nil => exact absurd h (pySplit_ne_nil sep rest)
      | cons p ps =>
        rw [h] at ih
        simp only [pySplit, if_neg hc, h, List.headI, List.tail_cons,
          List.length_cons, List.count_cons, hbc] at ih ⊢
        simp only [Bool.false_eq_true, if_false] at ih ⊢
        omega

theorem pySplit_sepfree (sep : Char) (l : PyStr) :
    ∀ p ∈ pySplit sep l, sep ∉ p := by
  induction l with
  | nil =>
    intro p hp
    simp [pySplit] at hp
    simp [hp]
  | cons c rest ih =>
    intro p hp
    by_cases hc : c = sep
    · rw [pySplit, if_pos hc] at hp
      rcases List.mem_cons.mp hp with hp | hp
      · simp [hp]
      · exact ih p hp
    · cases h : pySplit sep rest with
      | nil => exact absurd h (pySplit_ne_nil sep rest)
      | cons q qs =>
        rw [pySplit, if_neg hc, h] at hp
        rcases List.mem_cons.mp hp with hp | hp
        · subst hp
          intro hmem
          rcases List.mem_cons.mp hmem with hmem | hmem
          · exact hc hmem.symm
          · exact ih q (h ▸ List.mem_cons_self q qs) hmem
        · exact ih p (h ▸ List.mem_cons_of_mem q hp)

theorem pyJoin_pySplit (sep : Char) (l : PyStr) :
    pyJoin sep (pySplit sep l) = l := by
  induction l with
  | nil => simp [pySplit, pyJoin]
  | cons c rest ih =>
    cases h : pySplit sep rest with
    | nil => exact absurd h (pySplit_ne_nil sep rest)
    | cons p ps =>
      rw [h] at ih
      by_cases hc : c = sep
      · subst hc
        rw [pySplit, if_pos rfl, h, pyJoin]
        exact congrArg (c :: ·) ih
      · rw [pySplit, if_neg hc, h]
        cases ps with
        | nil => simpa [pyJoin] using congrArg (c :: ·) ih
        | cons q qs => simpa [pyJoin] using congrArg (c :: ·) ih

theorem pySplit_of_not_mem {sep : Char} {a : PyStr} (h : sep ∉ a) :
    pySplit sep a = [a] := by
  induction a with
  | nil => simp [pySplit]
  | cons c rest ih =>
    have hc : c ≠ sep := fun hh => h (hh ▸ List.mem_cons_self c rest)
    have hrest : sep ∉ rest := fun hh => h (List.mem_cons_of_mem c hh)
    rw [pySplit, if_neg hc, ih hrest]
    simp

theorem pySplit_append_cons {sep : Char} {a : PyStr} (r : PyStr) (h : sep ∉ a) :
    pySplit sep (a ++ sep :: r) = a :: pySplit sep r := by
  induction a with
  | nil =>
    rw [List.nil_append, pySplit, if_pos rfl]
  | cons c rest ih =>
    have hc : c ≠ sep := fun hh => h (hh ▸ List.mem_cons_self c rest)
    have hrest : sep ∉ rest := fun hh => h (List.mem_cons_of_mem c hh)
    rw [List.cons_append, pySplit, if_neg hc, ih hrest]
    simp

theorem dropWhile_fix_append {p : Char → Bool} {x : PyStr} (y : PyStr)
    (hfix : List.dropWhile p x = x) (hne : x ≠ []) :
    List.dropWhile p (x ++ y) = x ++ y := by
  cases x with
  | nil => exact absurd rfl hne
  | cons c t =>
    have hpc : p c = false := by
      by_contra hpc
      have hpc' : p c = true := by
        cases h : p c
        · exact absurd h hpc
        · rfl
      rw [List.dropWhile_cons, if_pos hpc'] at hfix
      have := List.Sublist.length_le (List.dropWhile_sublist (l := t) p)
      rw [hfix] at this
      simp at this
    rw [List.cons_append, List.dropWhile_cons, if_neg (by simp [hpc])]

theorem dropWhile_all_append {p : Char → Bool} {xs : PyStr} (ys : PyStr)
    (h : ∀ c ∈ xs, p c = true) :
    List.dropWhile p (xs ++ ys) = List.dropWhile p ys := by
  induction xs with
  | nil => simp
  | cons c t ih =>
    rw [List.cons_append, List.dropWhile_cons,
      if_pos (h c (List.mem_cons_self c t))]
    exact ih fun d hd => h d (List.mem_cons_of_mem c hd)

theorem pyRStrip_append_space {u w : PyStr} (h : ∀ c ∈ w, isPySpace c = true) :
    pyRStrip (u ++ w) = pyRStrip u := by
  unfold pyRStrip
  rw [List.reverse_append,
    dropWhile_all_append u.reverse (fun c hc => h c (List.mem_reverse.mp hc))]

theorem count_pyLStrip_le (c : Char) (l : PyStr) :
    (pyLStrip l).count c ≤ l.count c :=
  (List.dropWhile_sublist isPySpace).count_le c

theorem count_pyRStrip_le (c : Char) (l : PyStr) :
    (pyRStrip l).count c ≤ l.count c := by
  unfold pyRStrip
  rw [List.count_reverse]
  calc (List.dropWhile isPySpace l.reverse).count c
      ≤ l.reverse.count c := (List.dropWhile_sublist isPySpace).count_le c
    _ = l.count c := List.count_reverse c l

theorem count_pyStrip_le (c : Char) (l : PyStr) :
    (pyStrip l).count c ≤ l.count c :=
  le_trans (count_pyLStrip_le c (pyRStrip l)) (count_pyRStrip_le c l)

theorem pyLStrip_append_fix {a : PyStr} (b : PyStr)
    (hfix : pyLStrip a = a) (hne : a ≠ []) : pyLStrip (a ++ b) = a ++ b :=
  dropWhile_fix_append b hfix hne

theorem pyRStrip_append_fix (a : PyStr) {b : PyStr}
    (hfix : pyRStrip b = b) (hne : b ≠ []) : pyRStrip (a ++ b) = a ++ b := by
  unfold pyRStrip at hfix ⊢
  have hrev : List.dropWhile isPySpace b.reverse = b.reverse := by
    have := congrArg List.reverse hfix
    rwa [List.reverse_reverse] at this
  have hbne : b.reverse ≠ [] := by
    intro hh
    exact hne (by simpa using congrArg List.reverse hh)
  rw [List.reverse_append, dropWhile_fix_append a.reverse hrev hbne,
    List.reverse_append, List.reverse_reverse, List.reverse_reverse]

theorem parseApps_length {ps : List PyStr} {l : List Int}
    (h : parseApps ps = some l) : l.length = ps.length := by
  induction ps generalizing l with
  | nil => simp [parseApps] at h; simp [← h]
  | cons p rest ih =>
    simp only [parseApps] at h
    cases hi : pyInt (pyStrip p) with
    | none => rw [hi] at h; exact absurd h (by simp)
    | some v =>
      rw [hi] at h
      cases hr : parseApps rest with
      | none => rw [hr] at h; exact absurd h (by simp)
      | some tl =>
        rw [hr] at h
        simp only [Option.map_some] at h
        cases h
        simp [ih hr]

theorem process_file_step_conserve {netOk : NetOracle} {o : Options}
    {line : PyStr} {effs : List Effect} {p e : Nat}
    (h : process_file_step netOk o line = .ok (effs, p, e)) : p + e = 1 := by
  unfold process_file_step at h
  cases hp : parse_appsinstalled line with
  | error err => rw [hp] at h; exact absurd h (by simp)
  | ok oa =>
    rw [hp] at h
    cases oa with
    | none => cases h; rfl
    | some a =>
      simp only at h
      by_cases hf : py_falsy (device_memc_get o a.dev_type) = true
      · rw [if_pos hf] at h; cases h; rfl
      · rw [if_neg hf] at h
        cases hi : insert_appsinstalled netOk ((device_memc_get o a.dev_type).getD []) a o.dry with
        | mk effs' ok =>
          rw [hi] at h
          cases ok <;> cases h <;> rfl

theorem process_file_step_ok {netOk : NetOracle} {o : Options} {line : PyStr}
    (h : parse_appsinstalled line ≠ .error .valueError) :
    ∃ s, process_file_step netOk o line = .ok s := by
  cases hp : parse_appsinstalled line with
  | error err =>
    cases err
    exact absurd hp h
  | ok oa =>
    cases oa with
    | none => exact ⟨([], 0, 1), by unfold process_file_step; simp only [hp]⟩
    | some a =>
      by_cases hf : py_falsy (device_memc_get o a.dev_type) = true
      · refine ⟨([.logErrorUnknownDevice a.dev_type], 0, 1), ?_⟩
        unfold process_file_step
        simp only [hp, if_pos hf]
      · cases hi : insert_appsinstalled netOk ((device_memc_get o a.dev_type).getD []) a o.dry with
        | mk effs ok =>
          cases ok with
          | true =>
            refine ⟨(effs, 1, 0), ?_⟩
            unfold process_file_step
            simp only [hp, if_neg hf, hi]
          | false =>
            refine ⟨(effs, 0, 1), ?_⟩
            unfold process_file_step
            simp only [hp, if_neg hf, hi]

/-! Claim theorems. -/

/-- Claim C1 (code bug): the spec promises parser totality, but a line
that splits into six tab-separated fields makes `parse_appsinstalled`
raise an uncaught `ValueError` from tuple unpacking instead of returning
a `Record` or the rejection signal. -/
theorem C1_parser_crash_on_six_fields :
    parse_appsinstalled (pys "a\tb\t1.0\t2.0\t1\tx") = .error .valueError ∧
    (pySplit '\t' (pys "a\tb\t1.0\t2.0\t1\tx")).length = 6 :=
  ⟨rfl, rfl⟩

/-- Claim C2 (counterexample): on the same single file and dry-run
configuration, the sequential runner reports totals `(0, 1)` while the
cooperative runner reports `(0, 0)` — a malformed line is counted as an
error only by the sequential runner. -/
theorem C2_runner_totals_differ :
    linear_totals netTrue (defaultOpts true) [some [pys "x"]] = .ok (0, 1) ∧
    async_totals netTrue (defaultOpts true) [some [pys "x"]] = (0, 0) ∧
    ((0, 1) : Nat × Nat) ≠ ((0, 0) : Nat × Nat) :=
  ⟨rfl, rfl, by decide⟩

/-- Claim C2 (amended): the sequential and worker-pool runners produce
identical results (hence identical totals) on every input and
configuration; the cooperative runner may differ, since it skips
parse and routing failures without counting them and ignores dry-run. -/
theorem C2_linear_eq_threaded :
    ∀ (netOk : NetOracle) (o : Options) (files : List FileIn),
      runThreaded netOk o files = runLinear netOk o files := by
  intro netOk o files
  induction files with
  | nil => rfl
  | cons f fs ih =>
    cases f with
    | none => rfl
    | some lines =>
      cases hp : process_file netOk o lines with
      | error e =>
        simp only [runThreaded, List.map_cons, collect_futures, future_result, hp, runLinear]
      | ok r =>
        simp only [runThreaded, List.map_cons, collect_futures, future_result, hp, runLinear]
        unfold runThreaded at ih
        rw [ih]

/-- Claim C3 (counterexample): a one-line file whose line has an unknown
device type gives the cooperative runner totals `(0, 0)`, so
`processed + errors = 0` differs from the input line count `1`. -/
theorem C3_async_undercounts :
    async_totals netTrue (defaultOpts true) [some [pys "unknown\tid1\t1.0\t1.0\t1"]] = (0, 0) ∧
    (0 : Nat) + 0 ≠ ([pys "unknown\tid1\t1.0\t1.0\t1"] : List PyStr).length :=
  ⟨rfl, by decide⟩

/-- Claim C3 (amended): in the sequential (and worker-pool) per-file
processing, every line is counted exactly once, so
`processed + errors` equals the number of input lines of the file. -/
theorem C3_sequential_conservation :
    ∀ (netOk : NetOracle) (o : Options) (lines : List PyStr)
      (effs : List Effect) (p e : Nat),
      process_file netOk o lines = .ok (effs, p, e) → p + e = lines.length := by
  intro netOk o lines
  induction lines with
  | nil =>
    intro effs p e h
    cases h
    rfl
  | cons line rest ih =>
    intro effs p e h
    unfold process_file at h
    cases hs : process_file_step netOk o line with
    | error err => rw [hs] at h; exact absurd h (by simp)
    | ok s1 =>
      obtain ⟨effs1, p1, e1⟩ := s1
      rw [hs] at h
      cases hr : process_file netOk o rest with
      | error err =>
        simp only [hr] at h
        exact absurd h (by simp)
      | ok s2 =>
        obtain ⟨effs2, p2, e2⟩ := s2
        simp only [hr, Except.ok.injEq, Prod.mk.injEq] at h
        obtain ⟨-, hp2, he2⟩ := h
        have h1 := process_file_step_conserve hs
        have h2 := ih effs2 p2 e2 hr
        simp only [List.length_cons]
        omega

/-- Claim C3 (witness at a concrete run): a three-line file with one
valid, one malformed and one unknown-device line accounts
`1 + 2 = 3` lines. -/
theorem C3_sequential_conservation_witness : (1 : Nat) + 2 = 3 :=
  C3_sequential_conservation netTrue (defaultOpts true)
    [pys "idfa\tabc\t55.55\t37.37\t42,43", pys "x", pys "unknown\tid1\t1.0\t1.0\t1"]
    [.logDebugDryRun (pys "127.0.0.1:33013") (pys "idfa:abc"),
     .logErrorUnknownDevice (pys "unknown")] 1 2 (by rfl)

/-- Claim C4 (counterexample): with dry-run enabled, the asynchronous
write path still performs a network write — `insert_appsinstalled_async`
takes no dry-run parameter, so processing one valid record under
dry-run emits a `netSet` network effect. -/
theorem C4_async_ignores_dry_run :
    (defaultOpts true).dry = true ∧
    process_file_async netTrue (defaultOpts true) [pys "idfa\tabc\t55.55\t37.37\t42"] =
      .ok ([.netSet (pys "127.0.0.1:33013") (pys "idfa:abc")], 1, 0) ∧
    isNetSet (.netSet (pys "127.0.0.1:33013") (pys "idfa:abc")) = true :=
  ⟨rfl, rfl, rfl⟩

/-- Claim C4 (amended): in the synchronous single-key write path,
dry-run performs no network I/O: for every record it emits exactly one
debug-level log of the would-be write and reports success. -/
theorem C4_dry_run_sync_no_network :
    ∀ (netOk : NetOracle) (memc_addr : PyStr) (a : AppsInstalled),
      insert_appsinstalled netOk memc_addr a true =
        ([.logDebugDryRun memc_addr (a.dev_type ++ ':' :: a.dev_id)], true) := by
  intro netOk memc_addr a
  rfl

/-- Claim C5 (counterexample): the cooperative runner drops a record
with an unrecognized device type silently — no error count and no log
effect at all, contradicting "in every runner". -/
theorem C5_async_silent_unknown_device :
    process_file_async netTrue (defaultOpts false) [pys "unknown\tid2\t1.0\t1.0\t7"] =
      .ok ([], 0, 0) :=
  rfl

/-- Claim C5 (amended): in the sequential (and worker-pool) runner, a
parsed record whose device type fails the shard lookup is dropped,
counted as one error, and an error-level log entry carrying the
offending device-type name is emitted; no write and no retry happen. -/
theorem C5_unknown_device_counted_logged :
    ∀ (netOk : NetOracle) (o : Options) (line : PyStr) (a : AppsInstalled),
      parse_appsinstalled line = .ok (some a) →
      py_falsy (device_memc_get o a.dev_type) = true →
      process_file_step netOk o line = .ok ([.logErrorUnknownDevice a.dev_type], 0, 1) := by
  intro netOk o line a hp hf
  unfold process_file_step
  simp only [hp, if_pos hf]

/-- Claim C5 (witness): the unknown-device example line is counted as
one error with the error log naming `unknown`. -/
theorem C5_unknown_device_counted_logged_witness :
    process_file_step netTrue (defaultOpts true) (pys "unknown\tid1\t1.0\t1.0\t1") =
      .ok ([.logErrorUnknownDevice (pys "unknown")], 0, 1) :=
  C5_unknown_device_counted_logged netTrue (defaultOpts true)
    (pys "unknown\tid1\t1.0\t1.0\t1")
    ⟨pys "unknown", pys "id1", .finite 10 (-1), .finite 10 (-1), [1]⟩
    (by rfl) (by rfl)

/-- Claim C6 (counterexample): in the sequential runner one failing file
aborts the whole run: with the first file unreadable the run ends in an
error even though the second file, on its own, processes fine. -/
theorem C6_linear_aborts_on_file_failure :
    runLinear netTrue (defaultOpts true)
      [none, some [pys "idfa\tabc\t55.55\t37.37\t42,43"]] = .error .ioError ∧
    process_file netTrue (defaultOpts true) [pys "idfa\tabc\t55.55\t37.37\t42,43"] =
      .ok ([.logDebugDryRun (pys "127.0.0.1:33013") (pys "idfa:abc")], 1, 0) :=
  ⟨rfl, rfl⟩

/-- Claim C6 (amended): per-record failures never abort: as long as no
line of a file triggers the parser's uncaught unpacking exception, the
per-file processing returns a result for every oracle — malformed
records, unknown device types and failed writes are all absorbed. -/
theorem C6_record_failures_never_abort :
    ∀ (netOk : NetOracle) (o : Options) (lines : List PyStr),
      (∀ l ∈ lines, parse_appsinstalled l ≠ .error .valueError) →
      ∃ r, process_file netOk o lines = .ok r := by
  intro netOk o lines
  induction lines with
  | nil => exact fun _ => ⟨([], 0, 0), rfl⟩
  | cons line rest ih =>
    intro h
    obtain ⟨⟨effs2, p2, e2⟩, hr2⟩ := ih fun l hl => h l (List.mem_cons_of_mem line hl)
    obtain ⟨⟨effs1, p1, e1⟩, hs1⟩ :=
      @process_file_step_ok netOk o line (h line (List.mem_cons_self line rest))
    refine ⟨(effs1 ++ effs2, p1 + p2, e1 + e2), ?_⟩
    unfold process_file
    simp only [hs1, hr2]

/-- Claim C6 (witness): a file whose only line suffers a write failure
(every write refused by the oracle) still returns a result. -/
theorem C6_record_failures_never_abort_witness :
    ∃ r, process_file netFalse (defaultOpts false) [pys "idfa\tabc\t55.55\t37.37\t42"] = .ok r :=
  C6_record_failures_never_abort netFalse (defaultOpts false)
    [pys "idfa\tabc\t55.55\t37.37\t42"]
    (by
      intro l hl hc
      rw [List.mem_singleton] at hl
      subst hl
      rw [show parse_appsinstalled (pys "idfa\tabc\t55.55\t37.37\t42") =
        .ok (some ⟨pys "idfa", pys "abc", .finite 5555 (-2), .finite 3737 (-2), [42]⟩)
        from rfl] at hc
      exact Except.noConfusion hc)

/-- Claim C7 (counterexample): two records destined to the same shard
produce two single-key write operations, not the single batched flush
of size at most 100 that `ceil(2 / 100) = 1` would demand: the
sequential runner has no batch accumulator. -/
theorem C7_no_batching :
    process_file netTrue (defaultOpts false)
      [pys "idfa\ta\t1.0\t1.0\t1", pys "idfa\tb\t1.0\t1.0\t2"] =
      .ok ([.netSet (pys "127.0.0.1:33013") (pys "idfa:a"),
            .netSet (pys "127.0.0.1:33013") (pys "idfa:b")], 2, 0) ∧
    List.countP isNetSet
      [.netSet (pys "127.0.0.1:33013") (pys "idfa:a"),
       .netSet (pys "127.0.0.1:33013") (pys "idfa:b")] = 2 ∧
    (2 : Nat) ≠ (2 + 100 - 1) / 100 :=
  ⟨rfl, rfl, by decide⟩

/-- Claim C7 (amended): the sequential runner performs no batching — in
live mode every successfully parsed and routed record issues exactly one
single-key network write, whether or not the write succeeds. -/
theorem C7_one_write_per_record :
    ∀ (netOk : NetOracle) (o : Options) (line : PyStr) (a : AppsInstalled),
      o.dry = false →
      parse_appsinstalled line = .ok (some a) →
      py_falsy (device_memc_get o a.dev_type) = false →
      ∃ effs p e, process_file_step netOk o line = .ok (effs, p, e) ∧
        effs.countP isNetSet = 1 := by
  intro netOk o line a hd hp hf
  unfold process_file_step
  simp only [hp, hf, Bool.false_eq_true, if_false]
  unfold insert_appsinstalled
  rw [hd]
  cases hn : netOk ((device_memc_get o a.dev_type).getD []) (a.dev_type ++ ':' :: a.dev_id) with
  | true =>
    refine ⟨[.netSet ((device_memc_get o a.dev_type).getD []) (a.dev_type ++ ':' :: a.dev_id)],
      1, 0, ?_, ?_⟩
    · simp [hn]
    · simp [List.countP_cons, isNetSet]
  | false =>
    refine ⟨[.netSet ((device_memc_get o a.dev_type).getD []) (a.dev_type ++ ':' :: a.dev_id),
      .logExcWriteFail ((device_memc_get o a.dev_type).getD [])], 0, 1, ?_, ?_⟩
    · simp [hn]
    · simp [List.countP_cons, isNetSet]

/-- Claim C7 (witness): one routed record in live mode makes exactly one
network write. -/
theorem C7_one_write_per_record_witness :
    ∃ effs p e, process_file_step netTrue (defaultOpts false) (pys "idfa\ta\t1.0\t1.0\t1") =
      .ok (effs, p, e) ∧ effs.countP isNetSet = 1 :=
  C7_one_write_per_record netTrue (defaultOpts false) (pys "idfa\ta\t1.0\t1.0\t1")
    ⟨pys "idfa", pys "a", .finite 10 (-1), .finite 10 (-1), [1]⟩
    rfl (by rfl) (by rfl)

/-- Claim C8: both the synchronous and the asynchronous write paths use
the key `dev_type + ":" + dev_id` for the store write: the first effect
of a live insert is a network set on exactly that key. -/
theorem C8_shard_key :
    ∀ (netOk : NetOracle) (memc_addr : PyStr) (a : AppsInstalled),
      (insert_appsinstalled netOk memc_addr a false).1.head? =
        some (.netSet memc_addr (a.dev_type ++ ':' :: a.dev_id)) ∧
      (insert_appsinstalled_async netOk memc_addr a).1.head? =
        some (.netSet memc_addr (a.dev_type ++ ':' :: a.dev_id)) := by
  intro netOk memc_addr a
  refine ⟨?_, ?_⟩ <;>
    cases h : netOk memc_addr (a.dev_type ++ ':' :: a.dev_id) <;>
      simp [insert_appsinstalled, insert_appsinstalled_async, h]

/-- Claim C9: a line whose fifth tab-separated field (the app list) is
empty or whitespace-only is rejected by the parser — `strip()` removes
the trailing whitespace and the fourth tab, leaving fewer than five
fields — and consequently every parsed record has a non-empty `apps`
sequence. -/
theorem C9_empty_apps_rejected :
    (∀ (line a b c d e : PyStr), pySplit '\t' line = [a, b, c, d, e] →
      (∀ ch ∈ e, isPySpace ch = true) →
      parse_appsinstalled line = .ok none) ∧
    (∀ (line : PyStr) (r : AppsInstalled),
      parse_appsinstalled line = .ok (some r) → r.apps ≠ []) := by
  constructor
  · intro line a b c d e hsplit hsp
    have hjoin := pyJoin_pySplit '\t' line
    rw [hsplit] at hjoin
    have hline : line = a ++ ['\t'] ++ b ++ ['\t'] ++ c ++ ['\t'] ++ d ++ ['\t'] ++ e := by
      rw [← hjoin]
      simp [pyJoin, List.append_assoc]
    have hta : '\t' ∉ a := pySplit_sepfree '\t' line a (by rw [hsplit]; simp)
    have htb : '\t' ∉ b := pySplit_sepfree '\t' line b (by rw [hsplit]; simp)
    have htc : '\t' ∉ c := pySplit_sepfree '\t' line c (by rw [hsplit]; simp)
    have htd : '\t' ∉ d := pySplit_sepfree '\t' line d (by rw [hsplit]; simp)
    have hr1 : pyRStrip line =
        pyRStrip (a ++ ['\t'] ++ b ++ ['\t'] ++ c ++ ['\t'] ++ d ++ ['\t']) := by
      rw [hline]
      exact pyRStrip_append_space hsp
    have hr2 : pyRStrip (a ++ ['\t'] ++ b ++ ['\t'] ++ c ++ ['\t'] ++ d ++ ['\t']) =
        pyRStrip (a ++ ['\t'] ++ b ++ ['\t'] ++ c ++ ['\t'] ++ d) :=
      pyRStrip_append_space (by
        intro ch hch
        rw [List.mem_singleton] at hch
        subst hch
        rfl)
    have hcX : (a ++ ['\t'] ++ b ++ ['\t'] ++ c ++ ['\t'] ++ d).count '\t' = 3 := by
      simp [List.count_append, List.count_singleton,
        List.count_eq_zero.mpr hta, List.count_eq_zero.mpr htb,
        List.count_eq_zero.mpr htc, List.count_eq_zero.mpr htd]
    have hcount : (pyStrip line).count '\t' ≤ 3 := by
      have h1 : (pyStrip line).count '\t' ≤ (pyRStrip line).count '\t' :=
        count_pyLStrip_le '\t' (pyRStrip line)
      have h2 : (pyRStrip (a ++ ['\t'] ++ b ++ ['\t'] ++ c ++ ['\t'] ++ d)).count '\t' ≤ 3 :=
        hcX ▸ count_pyRStrip_le '\t' (a ++ ['\t'] ++ b ++ ['\t'] ++ c ++ ['\t'] ++ d)
      calc (pyStrip line).count '\t'
          ≤ (pyRStrip line).count '\t' := h1
        _ = (pyRStrip (a ++ ['\t'] ++ b ++ ['\t'] ++ c ++ ['\t'] ++ d)).count '\t' := by
            rw [hr1, hr2]
        _ ≤ 3 := h2
    have hlen : (pySplit '\t' (pyStrip line)).length < 5 := by
      rw [pySplit_length]
      omega
    unfold parse_appsinstalled
    rw [if_pos hlen]
  · intro line r h
    unfold parse_appsinstalled at h
    by_cases hlen : (pySplit '\t' (pyStrip line)).length < 5
    · rw [if_pos hlen] at h
      exact absurd h (by simp)
    · rw [if_neg hlen] at h
      split at h
      · rename_i dt did lat lon raw hsplit5
        split at h
        · exact absurd h (by simp)
        · rename_i hids
          split at h
          · exact absurd h (by simp)
          · rename_i apps happs
            split at h
            · rename_i la lo hla hlo
              have hinj : (⟨dt, did, la, lo, apps⟩ : AppsInstalled) = r := by
                have := h
                simp only [Except.ok.injEq, Option.some.injEq] at this
                exact this
              have hlenapps : apps.length = (pySplit ',' raw).length :=
                parseApps_length happs
              rw [pySplit_length] at hlenapps
              rw [← hinj]
              exact List.ne_nil_of_length_pos (by simp only [hlenapps]; omega)
            · exact absurd h (by simp)
      · exact absurd h (by simp)

/-- Claim C9 (witness): the line with a whitespace-only fifth field is
rejected. -/
theorem C9_empty_apps_rejected_witness :
    parse_appsinstalled (pys "idfa\tabc\t1.0\t1.0\t ") = .ok none :=
  C9_empty_apps_rejected.1 (pys "idfa\tabc\t1.0\t1.0\t ")
    (pys "idfa") (pys "abc") (pys "1.0") (pys "1.0") (pys " ")
    (by rfl) (by decide)

theorem parse_fields {dt did latS lonS rawApps : PyStr} {apps : List Int}
    {lv lov : PyFloat} (line : PyStr)
    (hsplit : pySplit '\t' (pyStrip line) = [dt, did, latS, lonS, rawApps])
    (hdtne : dt ≠ []) (hdidne : did ≠ [])
    (happs : parseApps (pySplit ',' rawApps) = some apps)
    (hlat : pyFloat latS = some lv) (hlon : pyFloat lonS = some lov) :
    parse_appsinstalled line = .ok (some ⟨dt, did, lv, lov, apps⟩) := by
  unfold parse_appsinstalled
  rw [hsplit]
  rw [if_neg (by simp)]
  show (if dt = [] ∨ did = [] then (Except.ok none : Except PyErr (Option AppsInstalled))
    else
      match parseApps (pySplit ',' rawApps) with
      | none => Except.ok none
      | some apps2 =>
        match pyFloat latS, pyFloat lonS with
        | some la, some lo => Except.ok (some ⟨dt, did, la, lo, apps2⟩)
        | _, _ => Except.ok none) = Except.ok (some ⟨dt, did, lv, lov, apps⟩)
  rw [if_neg (by simp [hdtne, hdidne])]
  simp only [happs, hlat, hlon]

/-- Claim C10: the parser has no finiteness check on the coordinates —
an otherwise-valid five-field line whose latitude or longitude parses as
NaN or infinity yields a record, and (routed, under dry-run) the line is
counted as processed, not rejected as invalid geo. -/
theorem C10_nonfinite_coords_accepted :
    ∀ (netOk : NetOracle) (o : Options) (dt did latS lonS rawApps : PyStr)
      (apps : List Int) (lv lov : PyFloat) (addr : PyStr),
      '\t' ∉ dt → '\t' ∉ did → '\t' ∉ latS → '\t' ∉ lonS → '\t' ∉ rawApps →
      dt ≠ [] → did ≠ [] → rawApps ≠ [] →
      pyLStrip dt = dt → pyRStrip rawApps = rawApps →
      parseApps (pySplit ',' rawApps) = some apps →
      pyFloat latS = some lv → pyFloat lonS = some lov →
      (lv.notFinite = true ∨ lov.notFinite = true) →
      o.dry = true →
      device_memc_get o dt = some addr → addr ≠ [] →
      parse_appsinstalled
          (dt ++ '\t' :: (did ++ '\t' :: (latS ++ '\t' :: (lonS ++ '\t' :: rawApps)))) =
        .ok (some ⟨dt, did, lv, lov, apps⟩) ∧
      process_file_step netOk o
          (dt ++ '\t' :: (did ++ '\t' :: (latS ++ '\t' :: (lonS ++ '\t' :: rawApps)))) =
        .ok ([.logDebugDryRun addr (dt ++ ':' :: did)], 1, 0) := by
  intro netOk o dt did latS lonS rawApps apps lv lov addr
  intro htd hti htla htlo htr hdtne hdidne hrane hlead htrail happs hlat hlon hnf hdry haddr hane
  have hrs : pyRStrip (dt ++ '\t' :: (did ++ '\t' :: (latS ++ '\t' :: (lonS ++ '\t' :: rawApps))))
      = dt ++ '\t' :: (did ++ '\t' :: (latS ++ '\t' :: (lonS ++ '\t' :: rawApps))) := by
    have hx : dt ++ '\t' :: (did ++ '\t' :: (latS ++ '\t' :: (lonS ++ '\t' :: rawApps)))
        = (dt ++ ['\t'] ++ did ++ ['\t'] ++ latS ++ ['\t'] ++ lonS ++ ['\t']) ++ rawApps := by
      simp [List.append_assoc]
    rw [hx, pyRStrip_append_fix _ htrail hrane]
  have hls : pyLStrip (dt ++ '\t' :: (did ++ '\t' :: (latS ++ '\t' :: (lonS ++ '\t' :: rawApps))))
      = dt ++ '\t' :: (did ++ '\t' :: (latS ++ '\t' :: (lonS ++ '\t' :: rawApps))) :=
    pyLStrip_append_fix _ hlead hdtne
  have hstrip : pyStrip (dt ++ '\t' :: (did ++ '\t' :: (latS ++ '\t' :: (lonS ++ '\t' :: rawApps))))
      = dt ++ '\t' :: (did ++ '\t' :: (latS ++ '\t' :: (lonS ++ '\t' :: rawApps))) := by
    unfold pyStrip
    rw [hrs, hls]
  have hsplit : pySplit '\t'
      (pyStrip (dt ++ '\t' :: (did ++ '\t' :: (latS ++ '\t' :: (lonS ++ '\t' :: rawApps)))))
      = [dt, did, latS, lonS, rawApps] := by
    rw [hstrip, pySplit_append_cons _ htd, pySplit_append_cons _ hti,
      pySplit_append_cons _ htla, pySplit_append_cons _ htlo,
      pySplit_of_not_mem htr]
  have hparse := parse_fields _ hsplit hdtne hdidne happs hlat hlon
  refine ⟨hparse, ?_⟩
  unfold process_file_step
  simp only [hparse]
  rw [if_neg (by
    rw [haddr]
    show ¬(addr.isEmpty = true)
    rw [List.isEmpty_eq_false.mpr hane]
    simp)]
  simp only [haddr, Option.getD_some, hdry]
  simp [insert_appsinstalled]

/-- Claim C10 (witness): the line `idfa, abc, nan, -inf, 42` parses to a
record with NaN latitude and negative-infinity longitude and is counted
as processed under dry-run. -/
theorem C10_nonfinite_coords_accepted_witness :
    parse_appsinstalled (pys "idfa\tabc\tnan\t-inf\t42") =
      .ok (some ⟨pys "idfa", pys "abc", .nan, .ninf, [42]⟩) ∧
    process_file_step netTrue (defaultOpts true) (pys "idfa\tabc\tnan\t-inf\t42") =
      .ok ([.logDebugDryRun (pys "127.0.0.1:33013") (pys "idfa:abc")], 1, 0) :=
  C10_nonfinite_coords_accepted netTrue (defaultOpts true)
    (pys "idfa") (pys "abc") (pys "nan") (pys "-inf") (pys "42")
    [42] .nan .ninf (pys "127.0.0.1:33013")
    (by decide) (by decide) (by decide) (by decide) (by decide)
    (by decide) (by decide) (by decide)
    (by rfl) (by rfl) (by rfl) (by rfl) (by rfl)
    (Or.inl rfl) rfl (by rfl) (by decide)

end MemcLoad
